import Mathlib

/-
Verification of the serverless CRUD template (src/lambda_function/app.py).

The Python handler dispatches an API-gateway event to one of four DynamoDB
operations. We embed it shallowly:

* a Python dict is an association list keyed by `String`, with `dset`
  implementing dict assignment (replace in place, else append) and `dget`
  implementing lookup;
* an ISO-8601 UTC timestamp produced by `datetime.datetime.utcnow().isoformat()`
  is abstracted as `Val.time (now : Nat)`; comparison of such timestamp strings
  is comparison of the underlying `Nat`;
* the DynamoDB table is an association list from the key attribute `id` to the
  stored item; the storage collaborator operations (conditional `put_item`,
  `get_item`, conditional `update_item`, `delete_item`) are modelled from the
  spec of the black-box store: conditional writes atomically check existence
  and raise `ConditionalCheckFailedException` on precondition failure;
* `json.loads` is modelled at its interface: the request body is either null
  (a `TypeError` is raised), an invalid JSON string (a `JSONDecodeError` is
  raised), or a string whose parse is an object;
* an uncaught Python exception is the `Except.error` branch of the dispatcher
  result; handler-internal `try/except` blocks are the `match` on the storage
  result.
-/

namespace ServerlessCrud

/-- A JSON-style field value stored in an item. Timestamps written by the
handler are abstracted as `Val.time`. -/
inductive Val where
  | str (s : String)
  | time (t : Nat)
  | int (n : Int)
  | bool (b : Bool)
  deriving DecidableEq, Repr

/-- A Python dict with string keys, as an association list without duplicate
keys by construction of its operations. -/
abbrev Dict (α : Type) := List (String × α)

/-- Dict lookup, `d[k]` / `d.get(k)`. -/
def dget {α : Type} : Dict α → String → Option α
  | [], _ => none
  | (k, v) :: rest, key => if k = key then some v else dget rest key

/-- Dict assignment `d[k] = v`: replace the binding in place if the key is
present, otherwise append it. -/
def dset {α : Type} : Dict α → String → α → Dict α
  | [], key, v => [(key, v)]
  | (k, w) :: rest, key, v =>
      if k = key then (key, v) :: rest else (k, w) :: dset rest key v

/-- Removal of a key, `del d[k]` (used for the delete-by-key storage call). -/
def ddel {α : Type} : Dict α → String → Dict α
  | [], _ => []
  | (k, v) :: rest, key =>
      if k = key then ddel rest key else (k, v) :: ddel rest key

/-- One stored record: a mapping from field name to value. -/
abbrev Item := Dict Val

/-- The DynamoDB table: items keyed by their `id` attribute. -/
abbrev Table := Dict Item

/-- The error classes the handler distinguishes in its `except` blocks: a
`ConditionalCheckFailedException` (inspected through `e.response` and the
error code) against any other client error. -/
inductive DBErr where
  | conditionalCheckFailed
  | clientError (msg : String)
  deriving DecidableEq, Repr

/-- Modelled from the spec: `putIfAbsent(item)` — the storage collaborator is
not part of the repository. `table.put_item` with condition expression
`attribute_not_exists(id)`: fails with a conditional-check error when an item
with the same key exists, stores the full item otherwise. An item without a
string `id` key attribute is rejected by the store as a client error. -/
def db_put_item (table : Table) (item : Item) : Except DBErr Table :=
  match dget item "id" with
  | some (Val.str i) =>
      match dget table i with
      | some _ => .error .conditionalCheckFailed
      | none => .ok (dset table i item)
  | _ => .error (.clientError "One or more parameter values were invalid")

/-- Modelled from the spec: `getByKey(id)` — `table.get_item` returns the item
stored under the key, or nothing. -/
def db_get_item (table : Table) (item_id : String) : Option Item :=
  dget table item_id

/-- Modelled from the spec: `updateIfPresent(id, fieldUpdates)` —
`table.update_item` with condition expression `attribute_exists(id)` and
update expression `SET modified = :modified`: fails with a conditional-check
error when no item with the key exists, otherwise sets exactly the `modified`
attribute of the stored item. -/
def db_update_item (table : Table) (item_id : String) (newModified : Val) :
    Except DBErr Table :=
  match dget table item_id with
  | some item => .ok (dset table item_id (dset item "modified" newModified))
  | none => .error .conditionalCheckFailed

/-- Modelled from the spec: `deleteByKey(id)` — `table.delete_item` removes
the key unconditionally and succeeds whether or not it was present. -/
def db_delete_item (table : Table) (item_id : String) : Table :=
  ddel table item_id

/-- A response body: either a plain message string or `json.dumps(item)`, the
serialization kept abstract as a constructor. -/
inductive RBody where
  | text (s : String)
  | jsonOf (item : Item)
  deriving DecidableEq, Repr

/-- The response envelope the handler returns. -/
structure Resp where
  statusCode : Nat
  body : RBody
  deriving DecidableEq, Repr

/-- `create_item` from app.py: stamp `created` and `modified` with the one
current timestamp, conditionally insert; translate a conditional-check
failure to 400 and any other storage error to 500. Returns the response
together with the table after the call. -/
def create_item (table : Table) (item_data : Item) (now : Nat) : Resp × Table :=
  let stamped := dset (dset item_data "created" (Val.time now)) "modified" (Val.time now)
  match db_put_item table stamped with
  | .ok table2 => (⟨200, .text "Item created successfully"⟩, table2)
  | .error .conditionalCheckFailed => (⟨400, .text "Item already exists."⟩, table)
  | .error (.clientError msg) => (⟨500, .text ("Error creating item: " ++ msg)⟩, table)

/-- `get_item` from app.py: point lookup; 200 with the serialized item when
found, 404 otherwise. The table is returned unchanged. -/
def get_item (table : Table) (item_id : String) : Resp × Table :=
  match db_get_item table item_id with
  | some item => (⟨200, .jsonOf item⟩, table)
  | none => (⟨404, .text "Item not found"⟩, table)

/-- `update_item` from app.py: stamp `modified` on the body dict with the
current timestamp, then conditionally update only the `modified` attribute
(the update expression is `SET modified = :modified`, whose value
`:modified` is the timestamp just stamped); translate a conditional-check
failure to 404 and any other storage error to 500. -/
def update_item (table : Table) (item_id : String) (item_data : Item) (now : Nat) :
    Resp × Table :=
  let _stamped := dset item_data "modified" (Val.time now)
  match db_update_item table item_id (Val.time now) with
  | .ok table2 => (⟨200, .text "Item updated successfully"⟩, table2)
  | .error .conditionalCheckFailed => (⟨404, .text "Item does not exist."⟩, table)
  | .error (.clientError msg) => (⟨500, .text ("Error updating item: " ++ msg)⟩, table)

/-- `delete_item` from app.py: unconditional delete by key, always 200 when
the storage call succeeds. -/
def delete_item (table : Table) (item_id : String) : Resp × Table :=
  (⟨200, .text "Item deleted successfully"⟩, db_delete_item table item_id)

/-- The uncaught Python exceptions `json.loads` can raise in the dispatcher. -/
inductive PyErr where
  | typeError (msg : String)
  | jsonDecodeError (msg : String)
  deriving DecidableEq, Repr

/-- The request body field (`body : string|null`), seen through `json.loads`:
null, a string that is not valid JSON, or a string parsing to an object. -/
inductive RawBody where
  | null
  | invalid (s : String)
  | obj (item : Item)
  deriving DecidableEq, Repr

/-- Modelled from the spec: the behavior of the standard-library `json.loads`
on the body. `json.loads(None)` raises `TypeError`; on a non-JSON string it
raises `JSONDecodeError`; otherwise it returns the parsed object. -/
def jsonLoads : RawBody → Except PyErr Item
  | .null => .error (.typeError "the JSON object must be str, bytes or bytearray, not NoneType")
  | .invalid s => .error (.jsonDecodeError ("Expecting value: " ++ s))
  | .obj item => .ok item

/-- The inbound request envelope: the three fields the dispatcher reads. -/
structure Event where
  httpMethod : String
  pathParameters : Option (Dict String)
  body : RawBody
  deriving DecidableEq, Repr

/-- The guard `path_parameters and (id in path_parameters)` followed by the
access `path_parameters[id]`: Python truthiness makes `None` and the empty
dict fail the guard; otherwise the key must be present. Returns the path id
exactly when the guard passes. -/
def pathId : Option (Dict String) → Option String
  | none => none
  | some d => if d.isEmpty then none else dget d "id"

/-- `lambda_handler_helper` from app.py: route on the exact method string and
the presence of a path id. `json.loads` runs outside any `try` block, so its
exceptions propagate out of the dispatcher (the `Except.error` branch). -/
def lambda_handler_helper (event : Event) (table : Table) (now : Nat) :
    Except PyErr (Resp × Table) :=
  if event.httpMethod = "GET" then
    match pathId event.pathParameters with
    | some item_id => .ok (get_item table item_id)
    | none => .ok (⟨400, .text "Invalid GET request"⟩, table)
  else if event.httpMethod = "POST" then
    match jsonLoads event.body with
    | .ok item_data => .ok (create_item table item_data now)
    | .error e => .error e
  else if event.httpMethod = "PUT" then
    match pathId event.pathParameters with
    | some item_id =>
        match jsonLoads event.body with
        | .ok item_data => .ok (update_item table item_id item_data now)
        | .error e => .error e
    | none => .ok (⟨400, .text "Invalid PUT request"⟩, table)
  else if event.httpMethod = "DELETE" then
    match pathId event.pathParameters with
    | some item_id => .ok (delete_item table item_id)
    | none => .ok (⟨400, .text "Invalid DELETE request"⟩, table)
  else
    .ok (⟨400, .text "Invalid HTTP method"⟩, table)

/-! ### Dictionary lemmas -/

theorem dget_dset_self {α : Type} (d : Dict α) (k : String) (v : α) :
    dget (dset d k v) k = some v := by
  induction d with
  | nil => simp [dget, dset]
  | cons p rest ih =>
      obtain ⟨k', w⟩ := p
      by_cases h : k' = k
      · simp [dget, dset, h]
      · simp [dget, dset, h, ih]

theorem dget_dset_ne {α : Type} (d : Dict α) (k k' : String) (v : α) (h : k ≠ k') :
    dget (dset d k v) k' = dget d k' := by
  induction d with
  | nil => simp [dget, dset, h]
  | cons p rest ih =>
      obtain ⟨k'', w⟩ := p
      by_cases h2 : k'' = k
      · subst h2
        simp [dget, dset, h]
      · simp [dget, dset, h2, ih]

theorem dget_ddel_self {α : Type} (d : Dict α) (k : String) :
    dget (ddel d k) k = none := by
  induction d with
  | nil => simp [dget, ddel]
  | cons p rest ih =>
      obtain ⟨k', w⟩ := p
      by_cases h : k' = k
      · simp [ddel, h, ih]
      · simp [dget, ddel, h, ih]

theorem mem_dset {α : Type} (d : Dict α) (k : String) (v : α) (p : String × α)
    (hp : p ∈ dset d k v) : p = (k, v) ∨ p ∈ d := by
  induction d with
  | nil => simpa [dset] using hp
  | cons q rest ih =>
      obtain ⟨k', w⟩ := q
      by_cases h : k' = k
      · simp only [dset, if_pos h, List.mem_cons] at hp
        rcases hp with h1 | h1
        · exact Or.inl h1
        · exact Or.inr (List.mem_cons_of_mem _ h1)
      · simp only [dset, if_neg h, List.mem_cons] at hp
        rcases hp with h1 | h1
        · exact Or.inr (by simp [h1])
        · rcases ih h1 with h2 | h2
          · exact Or.inl h2
          · exact Or.inr (List.mem_cons_of_mem _ h2)

theorem mem_ddel {α : Type} (d : Dict α) (k : String) (p : String × α)
    (hp : p ∈ ddel d k) : p ∈ d := by
  induction d with
  | nil => simp [ddel] at hp
  | cons q rest ih =>
      obtain ⟨k', w⟩ := q
      by_cases h : k' = k
      · simp only [ddel, if_pos h] at hp
        exact List.mem_cons_of_mem _ (ih hp)
      · simp only [ddel, if_neg h, List.mem_cons] at hp
        rcases hp with h1 | h1
        · exact List.mem_cons (a := p) |>.mpr (Or.inl h1)
        · exact List.mem_cons_of_mem _ (ih h1)

theorem dget_mem {α : Type} (d : Dict α) (k : String) (v : α)
    (h : dget d k = some v) : (k, v) ∈ d := by
  induction d with
  | nil => simp [dget] at h
  | cons q rest ih =>
      obtain ⟨k', w⟩ := q
      by_cases h2 : k' = k
      · subst h2
        simp [dget] at h
        simp [h]
      · simp [dget, h2] at h
        exact List.mem_cons_of_mem _ (ih h)

/-! ### Helper facts about the handlers -/

theorem dget_stamped_id (item_data : Item) (now : Nat) :
    dget (dset (dset item_data "created" (Val.time now)) "modified" (Val.time now)) "id" =
      dget item_data "id" := by
  rw [dget_dset_ne _ _ _ _ (by decide), dget_dset_ne _ _ _ _ (by decide)]

/-! ### Claim theorems -/

/-- C1: a Create whose body id already exists in storage returns 400 with
body "Item already exists." and leaves the table — in particular the
previously stored item — completely unchanged. -/
theorem create_existing_id_returns_400_unchanged
    (table : Table) (item_data : Item) (now : Nat) (i : String) (prev : Item)
    (hid : dget item_data "id" = some (Val.str i))
    (hex : dget table i = some prev) :
    create_item table item_data now = (⟨400, .text "Item already exists."⟩, table) ∧
    dget table i = some prev := by
  refine ⟨?_, hex⟩
  simp only [create_item, db_put_item, dget_stamped_id, hid, hex]

theorem create_existing_id_returns_400_unchanged_witness :
    dget [("id", Val.str "a")] "id" = some (Val.str "a") ∧
    dget [("a", [("id", Val.str "a")])] "a" = some [("id", Val.str "a")] ∧
    create_item [("a", [("id", Val.str "a")])] [("id", Val.str "a")] 7 =
      (⟨400, .text "Item already exists."⟩, [("a", [("id", Val.str "a")])]) := by
  refine ⟨by decide, by decide, ?_⟩
  exact (create_existing_id_returns_400_unchanged
    [("a", [("id", Val.str "a")])] [("id", Val.str "a")] 7 "a" [("id", Val.str "a")]
    (by decide) (by decide)).1

/-- C3: an Update whose path id is absent from storage returns 404 with body
"Item does not exist." and leaves the table unchanged. -/
theorem update_absent_id_returns_404_unchanged
    (table : Table) (item_id : String) (item_data : Item) (now : Nat)
    (habs : dget table item_id = none) :
    update_item table item_id item_data now =
      (⟨404, .text "Item does not exist."⟩, table) := by
  unfold update_item db_update_item
  rw [habs]

theorem update_absent_id_returns_404_unchanged_witness :
    dget ([] : Table) "x" = none ∧
    update_item [] "x" [("id", Val.str "x")] 5 =
      (⟨404, .text "Item does not exist."⟩, []) :=
  ⟨by decide, update_absent_id_returns_404_unchanged [] "x" [("id", Val.str "x")] 5 (by decide)⟩

/-- C4: Delete is idempotent: for every table and id the storage call
succeeds and the handler returns 200 with body "Item deleted successfully",
afterwards no item with that id is stored, and a second Delete on the same id
returns the same 200 response. -/
theorem delete_idempotent_200 (table : Table) (item_id : String) :
    (delete_item table item_id).1 = ⟨200, .text "Item deleted successfully"⟩ ∧
    dget (delete_item table item_id).2 item_id = none ∧
    (delete_item (delete_item table item_id).2 item_id).1 =
      ⟨200, .text "Item deleted successfully"⟩ := by
  refine ⟨rfl, ?_, rfl⟩
  exact dget_ddel_self table item_id

/-- C7: Read returns 200 with the full stored item serialized as the body
when the id is stored, 404 with body "Item not found" when it is not, and in
both cases leaves the table unchanged. -/
theorem read_found_or_404_no_side_effect (table : Table) (item_id : String) :
    (get_item table item_id).2 = table ∧
    (∀ item, dget table item_id = some item →
      (get_item table item_id).1 = ⟨200, .jsonOf item⟩) ∧
    (dget table item_id = none →
      (get_item table item_id).1 = ⟨404, .text "Item not found"⟩) := by
  refine ⟨?_, ?_, ?_⟩
  · unfold get_item db_get_item
    cases dget table item_id <;> rfl
  · intro item hit
    unfold get_item db_get_item
    rw [hit]
  · intro habs
    unfold get_item db_get_item
    rw [habs]

theorem read_found_or_404_no_side_effect_witness :
    dget [("x", [("id", Val.str "x")])] "x" = some [("id", Val.str "x")] ∧
    (get_item [("x", [("id", Val.str "x")])] "x").1 =
      ⟨200, .jsonOf [("id", Val.str "x")]⟩ ∧
    dget ([] : Table) "x" = none ∧
    (get_item [] "x").1 = ⟨404, .text "Item not found"⟩ := by
  refine ⟨by decide, ?_, by decide, ?_⟩
  · exact (read_found_or_404_no_side_effect [("x", [("id", Val.str "x")])] "x").2.1
      [("id", Val.str "x")] (by decide)
  · exact (read_found_or_404_no_side_effect [] "x").2.2 (by decide)

/-- C2: an Update on an existing item returns 200 with body
"Item updated successfully"; the storage write sets only the `modified`
field: the new `modified` is the current timestamp, strictly greater than the
prior one under the clock hypothesis, `created` and every other field of the
stored item are unchanged, other ids are untouched, and no field of the
request body is persisted (the body `item_data` is arbitrary and absent from
the stored result). -/
theorem update_existing_sets_only_modified
    (table : Table) (item_id : String) (item_data : Item) (now : Nat) (prev : Item) (m : Nat)
    (hprev : dget table item_id = some prev)
    (_hm : dget prev "modified" = some (Val.time m))
    (hclock : m < now) :
    (update_item table item_id item_data now).1 =
      ⟨200, .text "Item updated successfully"⟩ ∧
    ∃ new, dget (update_item table item_id item_data now).2 item_id = some new ∧
      dget new "modified" = some (Val.time now) ∧ m < now ∧
      dget new "created" = dget prev "created" ∧
      (∀ k, k ≠ "modified" → dget new k = dget prev k) ∧
      ∀ j, j ≠ item_id → dget (update_item table item_id item_data now).2 j = dget table j := by
  have hmain : update_item table item_id item_data now =
      (⟨200, .text "Item updated successfully"⟩,
        dset table item_id (dset prev "modified" (Val.time now))) := by
    simp only [update_item, db_update_item, hprev]
  rw [hmain]
  refine ⟨rfl, dset prev "modified" (Val.time now), ?_, ?_, hclock, ?_, ?_, ?_⟩
  · exact dget_dset_self table item_id _
  · exact dget_dset_self prev "modified" _
  · exact dget_dset_ne prev "modified" "created" _ (by decide)
  · intro k hk
    exact dget_dset_ne prev "modified" k _ (fun h => hk h.symm)
  · intro j hj
    exact dget_dset_ne table item_id j _ (fun h => hj h.symm)

theorem update_existing_sets_only_modified_witness :
    dget [("x", [("id", Val.str "x"), ("created", Val.time 3), ("modified", Val.time 3)])] "x" =
      some [("id", Val.str "x"), ("created", Val.time 3), ("modified", Val.time 3)] ∧
    dget [("id", Val.str "x"), ("created", Val.time 3), ("modified", Val.time 3)] "modified" =
      some (Val.time 3) ∧ 3 < 5 ∧
    (update_item [("x", [("id", Val.str "x"), ("created", Val.time 3), ("modified", Val.time 3)])]
      "x" [("color", Val.str "red")] 5).1 = ⟨200, .text "Item updated successfully"⟩ := by
  refine ⟨by decide, by decide, by decide, ?_⟩
  exact (update_existing_sets_only_modified
    [("x", [("id", Val.str "x"), ("created", Val.time 3), ("modified", Val.time 3)])]
    "x" [("color", Val.str "red")] 5
    [("id", Val.str "x"), ("created", Val.time 3), ("modified", Val.time 3)] 3
    (by decide) (by decide) (by decide)).1

/-- C5: a Create with a fresh id succeeds with 200, stamping both `created`
and `modified` with the one current timestamp, and an immediate Read of that
id returns 200 with the stored item, in which `created` and `modified` are
that same identical timestamp. -/
theorem create_fresh_then_read_created_eq_modified
    (table : Table) (item_data : Item) (now : Nat) (i : String)
    (hid : dget item_data "id" = some (Val.str i))
    (habs : dget table i = none) :
    ∃ stored,
      create_item table item_data now =
        (⟨200, .text "Item created successfully"⟩, dset table i stored) ∧
      dget stored "created" = some (Val.time now) ∧
      dget stored "modified" = some (Val.time now) ∧
      get_item (create_item table item_data now).2 i =
        (⟨200, .jsonOf stored⟩, (create_item table item_data now).2) := by
  have hmain : create_item table item_data now =
      (⟨200, .text "Item created successfully"⟩,
        dset table i (dset (dset item_data "created" (Val.time now)) "modified" (Val.time now))) := by
    simp only [create_item, db_put_item, dget_stamped_id, hid, habs]
  refine ⟨dset (dset item_data "created" (Val.time now)) "modified" (Val.time now),
    hmain, ?_, ?_, ?_⟩
  · rw [dget_dset_ne _ _ _ _ (by decide)]
    exact dget_dset_self item_data "created" _
  · exact dget_dset_self (dset item_data "created" (Val.time now)) "modified" _
  · rw [hmain]
    simp only [get_item, db_get_item]
    rw [dget_dset_self]

theorem create_fresh_then_read_created_eq_modified_witness :
    dget [("id", Val.str "x")] "id" = some (Val.str "x") ∧
    dget ([] : Table) "x" = none ∧
    ∃ stored,
      create_item [] [("id", Val.str "x")] 4 =
        (⟨200, .text "Item created successfully"⟩, dset [] "x" stored) ∧
      dget stored "created" = some (Val.time 4) ∧
      dget stored "modified" = some (Val.time 4) ∧
      get_item (create_item [] [("id", Val.str "x")] 4).2 "x" =
        (⟨200, .jsonOf stored⟩, (create_item [] [("id", Val.str "x")] 4).2) :=
  ⟨by decide, by decide,
    create_fresh_then_read_created_eq_modified [] [("id", Val.str "x")] 4 "x"
      (by decide) (by decide)⟩

/-! ### Operation traces for the stored-item invariant -/

/-- One dispatched storage call, as routed by the handler. -/
inductive Op where
  | createOp (item_data : Item)
  | readOp (item_id : String)
  | updateOp (item_id : String) (item_data : Item)
  | deleteOp (item_id : String)

/-- The table after one handler call at timestamp `now`. -/
def applyOp (table : Table) : Op → Nat → Table
  | .createOp item_data, now => (create_item table item_data now).2
  | .readOp item_id, _ => (get_item table item_id).2
  | .updateOp item_id item_data, now => (update_item table item_id item_data now).2
  | .deleteOp item_id, _ => (delete_item table item_id).2

/-- The table after a sequence of handler calls, each with its timestamp. -/
def runOps (table : Table) : List (Op × Nat) → Table
  | [] => table
  | (op, t) :: rest => runOps (applyOp table op t) rest

/-- The clock is monotone: the timestamps are nondecreasing along the trace,
starting no earlier than `t0`. -/
def timesMono (t0 : Nat) : List (Op × Nat) → Bool
  | [] => true
  | (_, u) :: rest => decide (t0 ≤ u) && timesMono u rest

/-- A stored item carries both system timestamps, in order, and no later
than the clock value `t`. -/
def goodEntry (t : Nat) (item : Item) : Prop :=
  ∃ c m, dget item "created" = some (Val.time c) ∧
    dget item "modified" = some (Val.time m) ∧ c ≤ m ∧ m ≤ t

def goodTable (t : Nat) (table : Table) : Prop :=
  ∀ p ∈ table, goodEntry t p.2

theorem goodEntry_mono {t t2 : Nat} {item : Item} (h : goodEntry t item) (ht : t ≤ t2) :
    goodEntry t2 item := by
  obtain ⟨c, m, h1, h2, h3, h4⟩ := h
  exact ⟨c, m, h1, h2, h3, le_trans h4 ht⟩

theorem goodTable_mono {t t2 : Nat} {table : Table} (h : goodTable t table) (ht : t ≤ t2) :
    goodTable t2 table :=
  fun p hp => goodEntry_mono (h p hp) ht

theorem create_item_table_cases (table : Table) (item_data : Item) (now : Nat) :
    (create_item table item_data now).2 = table ∨
    ∃ i, dget table i = none ∧
      (create_item table item_data now).2 =
        dset table i (dset (dset item_data "created" (Val.time now)) "modified" (Val.time now)) := by
  cases hidv : dget (dset (dset item_data "created" (Val.time now)) "modified" (Val.time now)) "id" with
  | none => left; simp only [create_item, db_put_item, hidv]
  | some v =>
      cases v with
      | str i =>
          cases hex : dget table i with
          | some prev => left; simp only [create_item, db_put_item, hidv, hex]
          | none =>
              right
              exact ⟨i, hex, by simp only [create_item, db_put_item, hidv, hex]⟩
      | time t => left; simp only [create_item, db_put_item, hidv]
      | int n => left; simp only [create_item, db_put_item, hidv]
      | bool b => left; simp only [create_item, db_put_item, hidv]

theorem update_item_table_cases (table : Table) (item_id : String) (item_data : Item) (now : Nat) :
    (update_item table item_id item_data now).2 = table ∨
    ∃ prev, dget table item_id = some prev ∧
      (update_item table item_id item_data now).2 =
        dset table item_id (dset prev "modified" (Val.time now)) := by
  simp only [update_item, db_update_item]
  cases hex : dget table item_id with
  | none => left; rfl
  | some prev => right; exact ⟨prev, rfl, rfl⟩

theorem get_item_table_eq (table : Table) (item_id : String) :
    (get_item table item_id).2 = table := by
  simp only [get_item, db_get_item]
  cases dget table item_id <;> rfl

theorem applyOp_preserves_good (table : Table) (op : Op) (t now : Nat)
    (hg : goodTable t table) (ht : t ≤ now) :
    goodTable now (applyOp table op now) := by
  cases op with
  | createOp item_data =>
      show goodTable now (create_item table item_data now).2
      rcases create_item_table_cases table item_data now with h | ⟨i, _, h⟩
      · rw [h]; exact goodTable_mono hg ht
      · rw [h]
        intro p hp
        rcases mem_dset _ _ _ _ hp with hnew | hold
        · subst hnew
          refine ⟨now, now, ?_, dget_dset_self _ "modified" _, le_refl now, le_refl now⟩
          rw [dget_dset_ne _ _ _ _ (by decide)]
          exact dget_dset_self item_data "created" _
        · exact goodEntry_mono (hg p hold) ht
  | readOp item_id =>
      show goodTable now (get_item table item_id).2
      rw [get_item_table_eq]
      exact goodTable_mono hg ht
  | updateOp item_id item_data =>
      show goodTable now (update_item table item_id item_data now).2
      rcases update_item_table_cases table item_id item_data now with h | ⟨prev, hex, h⟩
      · rw [h]; exact goodTable_mono hg ht
      · rw [h]
        intro p hp
        rcases mem_dset _ _ _ _ hp with hnew | hold
        · subst hnew
          obtain ⟨c, m, hc, hm, hcm, hmt⟩ := hg (item_id, prev) (dget_mem _ _ _ hex)
          refine ⟨c, now, ?_, dget_dset_self prev "modified" _, ?_, le_refl now⟩
          · rw [dget_dset_ne _ _ _ _ (by decide)]
            exact hc
          · exact le_trans hcm (le_trans hmt ht)
        · exact goodEntry_mono (hg p hold) ht
  | deleteOp item_id =>
      intro p hp
      exact goodEntry_mono (hg p (mem_ddel _ _ _ hp)) ht

theorem runOps_good (ops : List (Op × Nat)) (table : Table) (t : Nat)
    (hg : goodTable t table) (hmono : timesMono t ops = true) :
    ∃ t2, goodTable t2 (runOps table ops) := by
  induction ops generalizing table t with
  | nil => exact ⟨t, hg⟩
  | cons p rest ih =>
      obtain ⟨op, u⟩ := p
      simp only [timesMono, Bool.and_eq_true, decide_eq_true_eq] at hmono
      exact ih (applyOp table op u) u (applyOp_preserves_good table op t u hg hmono.1) hmono.2

/-- C6: starting from an empty store, after any sequence of Create, Read,
Update, Delete handler calls under a monotone clock, every stored item
satisfies `created <= modified`. -/
theorem created_le_modified_invariant (ops : List (Op × Nat)) (t0 : Nat)
    (hmono : timesMono t0 ops = true) (i : String) (item : Item)
    (hfind : dget (runOps [] ops) i = some item) :
    ∃ c m, dget item "created" = some (Val.time c) ∧
      dget item "modified" = some (Val.time m) ∧ c ≤ m := by
  obtain ⟨t2, hgt⟩ := runOps_good ops [] t0 (fun p hp => absurd hp (List.not_mem_nil p)) hmono
  obtain ⟨c, m, hc, hm, hcm, _⟩ := hgt (i, item) (dget_mem _ _ _ hfind)
  exact ⟨c, m, hc, hm, hcm⟩

theorem created_le_modified_invariant_witness :
    timesMono 0 [(Op.createOp [("id", Val.str "x")], 1),
      (Op.updateOp "x" [("id", Val.str "x")], 2)] = true ∧
    dget (runOps [] [(Op.createOp [("id", Val.str "x")], 1),
      (Op.updateOp "x" [("id", Val.str "x")], 2)]) "x" =
      some [("id", Val.str "x"), ("created", Val.time 1), ("modified", Val.time 2)] ∧
    ∃ c m,
      dget [("id", Val.str "x"), ("created", Val.time 1), ("modified", Val.time 2)] "created" =
        some (Val.time c) ∧
      dget [("id", Val.str "x"), ("created", Val.time 1), ("modified", Val.time 2)] "modified" =
        some (Val.time m) ∧ c ≤ m := by
  refine ⟨by decide, by decide, ?_⟩
  exact created_le_modified_invariant
    [(Op.createOp [("id", Val.str "x")], 1), (Op.updateOp "x" [("id", Val.str "x")], 2)] 0
    (by decide) "x" [("id", Val.str "x"), ("created", Val.time 1), ("modified", Val.time 2)]
    (by decide)

/-! ### Routing and dispatcher totality -/

def supportedMethods : List String := ["GET", "POST", "PUT", "DELETE"]

theorem helper_unsupported_method (ev : Event) (table : Table) (now : Nat)
    (hns : ev.httpMethod ∉ supportedMethods) :
    lambda_handler_helper ev table now =
      .ok (⟨400, .text "Invalid HTTP method"⟩, table) := by
  have h1 : ev.httpMethod ≠ "GET" := fun h => hns (by rw [h]; decide)
  have h2 : ev.httpMethod ≠ "POST" := fun h => hns (by rw [h]; decide)
  have h3 : ev.httpMethod ≠ "PUT" := fun h => hns (by rw [h]; decide)
  have h4 : ev.httpMethod ≠ "DELETE" := fun h => hns (by rw [h]; decide)
  simp [lambda_handler_helper, h1, h2, h3, h4]

/-- C8: a GET, PUT or DELETE without a usable path id (null pathParameters or
no id key, i.e. the guard `pathId` yields nothing) returns 400 with the
method-specific invalid-request body and the table untouched (no storage
call); and any method outside GET, POST, PUT, DELETE returns 400 with body
"Invalid HTTP method", again with the table untouched. -/
theorem routing_missing_id_and_bad_method (ev : Event) (table : Table) (now : Nat) :
    ((ev.httpMethod = "GET" ∨ ev.httpMethod = "PUT" ∨ ev.httpMethod = "DELETE") →
      pathId ev.pathParameters = none →
      lambda_handler_helper ev table now =
        .ok (⟨400, .text ("Invalid " ++ ev.httpMethod ++ " request")⟩, table)) ∧
    (ev.httpMethod ∉ supportedMethods →
      lambda_handler_helper ev table now =
        .ok (⟨400, .text "Invalid HTTP method"⟩, table)) := by
  constructor
  · intro hm hpath
    rcases hm with h | h | h <;>
      simp [lambda_handler_helper, h, hpath]
  · exact helper_unsupported_method ev table now

theorem routing_missing_id_and_bad_method_witness :
    pathId (none : Option (Dict String)) = none ∧
    lambda_handler_helper ⟨"GET", none, RawBody.null⟩ [] 0 =
      .ok (⟨400, .text "Invalid GET request"⟩, []) ∧
    "PATCH" ∉ supportedMethods ∧
    lambda_handler_helper ⟨"PATCH", some [("id", "x")], RawBody.null⟩ [] 0 =
      .ok (⟨400, .text "Invalid HTTP method"⟩, []) := by
  refine ⟨by decide, ?_, by decide, ?_⟩
  · exact (routing_missing_id_and_bad_method ⟨"GET", none, RawBody.null⟩ [] 0).1
      (Or.inl rfl) (by decide)
  · exact (routing_missing_id_and_bad_method ⟨"PATCH", some [("id", "x")], RawBody.null⟩ [] 0).2
      (by decide)

/-- C9 counterexample: a POST whose body is null reaches `json.loads` outside
any `try` block, so the dispatcher raises a `TypeError` to its caller instead
of returning a response envelope. -/
theorem dispatcher_raises_on_null_post_body :
    lambda_handler_helper ⟨"POST", none, RawBody.null⟩ [] 0 =
      .error (.typeError "the JSON object must be str, bytes or bytearray, not NoneType") := rfl

/-- C9 amended: for every request in which a required body parses — POST
bodies always, PUT bodies whenever the path id guard passes — the dispatcher
returns a well-formed response envelope and no exception escapes; the only
raw faults out of the dispatcher are the `json.loads` failures on POST and
PUT. -/
theorem dispatcher_total_when_required_body_parses (ev : Event) (table : Table) (now : Nat)
    (hpost : ev.httpMethod = "POST" → ∃ item, ev.body = RawBody.obj item)
    (hput : ev.httpMethod = "PUT" → (pathId ev.pathParameters).isSome →
      ∃ item, ev.body = RawBody.obj item) :
    ∃ r t2, lambda_handler_helper ev table now = .ok (r, t2) := by
  unfold lambda_handler_helper
  by_cases hg : ev.httpMethod = "GET"
  · rw [if_pos hg]
    cases hpi : pathId ev.pathParameters with
    | some i => exact ⟨_, _, rfl⟩
    | none => exact ⟨_, _, rfl⟩
  · rw [if_neg hg]
    by_cases hp : ev.httpMethod = "POST"
    · rw [if_pos hp]
      obtain ⟨item, hb⟩ := hpost hp
      rw [hb]
      exact ⟨_, _, rfl⟩
    · rw [if_neg hp]
      by_cases hu : ev.httpMethod = "PUT"
      · rw [if_pos hu]
        cases hpi : pathId ev.pathParameters with
        | some i =>
            obtain ⟨item, hb⟩ := hput hu (by rw [hpi]; rfl)
            rw [hb]
            exact ⟨_, _, rfl⟩
        | none => exact ⟨_, _, rfl⟩
      · rw [if_neg hu]
        by_cases hd : ev.httpMethod = "DELETE"
        · rw [if_pos hd]
          cases hpi : pathId ev.pathParameters with
          | some i => exact ⟨_, _, rfl⟩
          | none => exact ⟨_, _, rfl⟩
        · rw [if_neg hd]
          exact ⟨_, _, rfl⟩

theorem dispatcher_total_when_required_body_parses_witness :
    ∃ r t2, lambda_handler_helper ⟨"GET", some [("id", "x")], RawBody.null⟩ [] 0 = .ok (r, t2) :=
  dispatcher_total_when_required_body_parses ⟨"GET", some [("id", "x")], RawBody.null⟩ [] 0
    (fun h => absurd h (by decide)) (fun h => absurd h (by decide))

/-- ASCII uppercasing, to state that a method string is a lowercase or
mixed-case spelling of a supported verb. -/
def asciiUp (c : Char) : Char :=
  if 97 ≤ c.toNat ∧ c.toNat ≤ 122 then Char.ofNat (c.toNat - 32) else c

def upperAscii (s : String) : String :=
  String.mk (s.data.map asciiUp)

/-- C10: method dispatch compares the exact method string, so a lowercase or
mixed-case spelling of a supported verb (its ASCII uppercasing is a supported
method but the string itself is not among the four) is handled exactly like
an unsupported method: 400 with body "Invalid HTTP method" and no storage
call. -/
theorem lowercase_method_rejected (ev : Event) (table : Table) (now : Nat)
    (_hcase : upperAscii ev.httpMethod ∈ supportedMethods)
    (hns : ev.httpMethod ∉ supportedMethods) :
    lambda_handler_helper ev table now =
      .ok (⟨400, .text "Invalid HTTP method"⟩, table) :=
  helper_unsupported_method ev table now hns

theorem lowercase_method_rejected_witness :
    upperAscii "get" ∈ supportedMethods ∧ "get" ∉ supportedMethods ∧
    lambda_handler_helper ⟨"get", some [("id", "x")], RawBody.null⟩ [] 0 =
      .ok (⟨400, .text "Invalid HTTP method"⟩, []) :=
  ⟨by decide, by decide,
    lowercase_method_rejected ⟨"get", some [("id", "x")], RawBody.null⟩ [] 0
      (by decide) (by decide)⟩

end ServerlessCrud
